import Mathlib

/-!
Verification of the `procout` library (src/src/lib.rs) against its
natural-language specification.

The development shallowly embeds the single public function `procout`
(lib.rs lines 121-187) together with the pieces of its dependencies that
the function's observable behaviour goes through:

* the snake-case file-name derivation performed by the `Inflector` crate
  (`to_snake_case`, used at lib.rs line 154);
* the token-stream rendering performed by `quote!` / `proc-macro2`
  `Display` (lib.rs lines 161-173);
* the `chrono` timestamp formatting of `TIMESTAMP_FORMAT` (lib.rs 115, 149);
* the filesystem / process effects (`env::current_dir`, `DirBuilder`,
  `File::create`, `write_all`, `println!`, `Command::new("rustfmt")`),
  modelled as explicit state passing over an abstract environment.

Machine strings are modelled as Lean `String` / `List Char`; all character
arithmetic is on `Char.toNat` (`Nat`).
-/

/-! ## Character helpers (models of Rust `char` methods, ASCII fragment)

The Rust originals (`char::is_alphanumeric`, `char::is_lowercase`) are
Unicode-aware; the module names this program handles are Rust identifiers
and timestamps, so the model restricts faithfully to the ASCII plane.
-/

/-- Models Rust `char::is_ascii_lowercase`. -/
def is_ascii_lowercase (c : Char) : Bool :=
  97 ≤ c.toNat && c.toNat ≤ 122

/-- Models Rust `char::is_ascii_uppercase`. -/
def is_ascii_uppercase (c : Char) : Bool :=
  65 ≤ c.toNat && c.toNat ≤ 90

/-- Models Rust `char::to_ascii_lowercase` (identity off `A`-`Z`). -/
def to_ascii_lowercase (c : Char) : Char :=
  if is_ascii_uppercase c then Char.ofNat (c.toNat + 32) else c

/-- Models Rust `char::to_ascii_uppercase` (identity off `a`-`z`). -/
def to_ascii_uppercase (c : Char) : Char :=
  if is_ascii_lowercase c then Char.ofNat (c.toNat - 32) else c

/-- Models Rust `char::is_alphanumeric` on the ASCII plane:
digits `0`-`9`, letters `A`-`Z` and `a`-`z`. -/
def is_alphanumeric (c : Char) : Bool :=
  (48 ≤ c.toNat && c.toNat ≤ 57) || is_ascii_uppercase c || is_ascii_lowercase c

/-! ## The Inflector snake-case derivation (lib.rs line 154)

Models `inflector::cases::snakecase::to_snake_case` (Inflector 0.11), the
external crate the program delegates the file-base-name derivation to.
That function is `to_case_snake_like(s, "_", "lower")`: it walks the
characters of the input after trimming trailing non-alphanumerics;
non-alphanumeric characters are separators and collapse into a single
underscore (dropped at the start); an alphanumeric character is pushed
lowercased, preceded by an underscore when it is "uppercase" in the
crate's sense (`c == c.to_ascii_uppercase()`, so digits count as
uppercase) and a neighbouring character of the original string is
lowercase, provided the previous character was not a separator
(`first_character` flag). The walk below carries the previous character
and looks ahead at the next one, which is exactly the information the
crate's index-based neighbour lookup reads on ASCII input. -/

/-- Models Inflector `char_is_seperator` (sic): any non-alphanumeric
character separates words. -/
def char_is_seperator (c : Char) : Bool :=
  !is_alphanumeric c

/-- Models Inflector `char_is_uppercase`: the crate compares the character
with its ASCII uppercasing, so any character that is not an ASCII
lowercase letter (digits included) counts as uppercase. -/
def char_is_uppercase (c : Char) : Bool :=
  c == to_ascii_uppercase c

/-- Models Inflector `next_or_previous_char_is_lowercase`: a neighbour
position counts when it exists and holds a lowercase letter. -/
def neighbour_is_lowercase : Option Char → Bool
  | some d => is_ascii_lowercase d
  | none => false

/-- Models Inflector `requires_seperator` (sic): an underscore is inserted
before an "uppercase" character that is not word-initial and has a
lowercase neighbour in the original string. -/
def requires_seperator (c : Char) (first_character : Bool)
    (prev next : Option Char) : Bool :=
  !first_character && char_is_uppercase c &&
    (neighbour_is_lowercase next || neighbour_is_lowercase prev)

/-- The character walk of Inflector `to_case_snake_like` with
`replace_with = "_"` and `case = "lower"`. `prev` is the character before
the current position in the original string, `fc` the crate's
`first_character` flag (true initially and after each separator). -/
def snake_go (prev : Option Char) (fc : Bool) : List Char → List Char
  | [] => []
  | c :: rest =>
    if char_is_seperator c then
      (if fc then [] else ['_']) ++ snake_go (some c) true rest
    else if requires_seperator c fc prev rest.head? then
      '_' :: to_ascii_lowercase c :: snake_go (some c) false rest
    else
      to_ascii_lowercase c :: snake_go (some c) false rest

/-- Models Inflector `trim_right` (sic): drop trailing non-alphanumeric
characters before the walk. -/
def trim_right (l : List Char) : List Char :=
  (l.reverse.dropWhile char_is_seperator).reverse

/-- Models Inflector `to_snake_case` (on the character list of the input),
as invoked at lib.rs line 154 to derive the output file's base name. -/
def to_snake_case (l : List Char) : List Char :=
  snake_go none true (trim_right l)

/-! ## Token streams and their text (lib.rs lines 161-173)

The code block handed to `procout` is a `proc_macro2::TokenStream`; the
written text is the `Display` rendering of the stream built by the
`quote!` invocation at lines 163-171. `Tok` models a `TokenTree`;
`displayList` models `proc-macro2`'s `Display for TokenStream` (the
fallback printer, which is the code path exercised when `procout` runs
outside a live compiler session, as in the repository's own test): tokens
are separated by one space, except that no space follows a `Punct` with
`Spacing::Joint`; groups print their delimiters with a brace group
spelled as open-brace-space ... space-close-brace. -/

/-- Models `proc_macro2::Delimiter`. -/
inductive Delim where
  | paren
  | brace
  | bracket
  | bare

/-- Models `proc_macro2::TokenTree`. For a `punct`, the `Bool` is true
when the spacing is `Joint` (no space printed after it). -/
inductive Tok where
  | ident : String → Tok
  | lit : String → Tok
  | punct : Char → Bool → Tok
  | group : Delim → List Tok → Tok

/-- True for a `Punct` with `Spacing::Joint`; the printer omits the
following space exactly there. -/
def isJoint : Tok → Bool
  | .punct _ j => j
  | _ => false

mutual

/-- Models `Display for proc_macro2::TokenTree` (fallback printer). -/
def displayTok : Tok → String
  | .ident s => s
  | .lit s => s
  | .punct c _ => String.singleton c
  | .group .paren ts => "(" ++ displayList ts ++ ")"
  | .group .bracket ts => "[" ++ displayList ts ++ "]"
  | .group .brace ts =>
      "\x7b " ++ displayList ts ++ (if ts.isEmpty then "" else " ") ++ "\x7d"
  | .group .bare ts => displayList ts

/-- Models `Display for proc_macro2::TokenStream` (fallback printer): a
space before every token but the first, unless the preceding token is a
joint punct. -/
def displayList : List Tok → String
  | [] => ""
  | t :: rest =>
      displayTok t ++
        (if rest.isEmpty then "" else if isJoint t then "" else " ") ++
        displayList rest

end

/-- True when the last token of the stream is a joint punct, i.e. when
the printer would not put a space between this stream and a following
one. -/
def endsJoint (l : List Tok) : Bool :=
  match l.getLast? with
  | some t => isJoint t
  | none => false

/-- The tokens `quote!` emits before `#code_block` (lib.rs lines 164-165):
the two suppression directives. `quote!` emits every single-character
punct with `Spacing::Alone`, so `#` and `!` print with following
spaces. -/
def headerToks : List Tok :=
  [ .punct '#' false, .punct '!' false,
    .group .bracket [.ident "allow", .group .paren [.ident "unused_imports"]],
    .punct '#' false, .punct '!' false,
    .group .bracket [.ident "allow", .group .paren [.ident "dead_code"]] ]

/-- The tokens `quote!` emits after `#code_block` (lib.rs lines 167-170):
the no-op test function importing the module's namespace. `quote!` emits
`::` as a joint colon followed by an alone colon. The interpolated
`#module_ident` is the resolved module identifier. -/
def footerToks (module_name : String) : List Tok :=
  [ .punct '#' false,
    .group .bracket [.ident "test"],
    .ident "fn", .ident "macro_test",
    .group .paren [],
    .group .brace
      [ .ident "use", .ident module_name,
        .punct ':' true, .punct ':' false,
        .punct '*' false, .punct ';' false ] ]

/-- The full rendered artifact text (lib.rs lines 161-172): the `Display`
of the `quote!` stream with the caller's code block spliced between the
directives and the test function. -/
def renderedText (code_block : List Tok) (module_name : String) : String :=
  displayList (headerToks ++ code_block ++ footerToks module_name)

/-- The text of the two suppression directives as the printer emits
them. -/
def directivesText : String :=
  "# ! [allow (unused_imports)] # ! [allow (dead_code)]"

/-- The text of the trailing no-op test function as the printer emits it:
a wildcard `use` of `module_name`. -/
def testFnText (module_name : String) : String :=
  "# [test] fn macro_test () \x7b use " ++ module_name ++ " :: * ; \x7d"

/-! ## Timestamp formatting (lib.rs lines 115 and 146-152)

When `module_ident` is absent the code formats `Utc::now()` with
`TIMESTAMP_FORMAT` via chrono's strftime-style formatter. The wall clock
is modelled as an explicit record of calendar fields; `formatTimestamp`
implements the strftime directives (`%Y` year zero-padded to four digits,
`%m` `%d` `%H` `%M` `%S` zero-padded to two). -/

/-- A UTC wall-clock instant, as the calendar fields chrono's formatter
reads. -/
structure DateTimeU where
  year : Nat
  month : Nat
  day : Nat
  hour : Nat
  minute : Nat
  second : Nat

/-- Zero-pad a number to two digits (chrono `%m`, `%d`, `%H`, `%M`,
`%S`). -/
def pad2 (n : Nat) : String :=
  if n < 10 then "0" ++ toString n else toString n

/-- Zero-pad a number to four digits (chrono `%Y` on common-era
years). -/
def pad4 (n : Nat) : String :=
  if n < 10 then "000" ++ toString n
  else if n < 100 then "00" ++ toString n
  else if n < 1000 then "0" ++ toString n
  else toString n

/-- The strftime walk over the format string's characters. -/
def fmtGo (t : DateTimeU) : List Char → String
  | [] => ""
  | '%' :: c :: rest =>
      (match c with
       | 'Y' => pad4 t.year
       | 'm' => pad2 t.month
       | 'd' => pad2 t.day
       | 'H' => pad2 t.hour
       | 'M' => pad2 t.minute
       | 'S' => pad2 t.second
       | c' => String.mk ['%', c']) ++ fmtGo t rest
  | c :: rest => String.singleton c ++ fmtGo t rest

/-- Models chrono `DateTime::format` for the directives this program
uses. -/
def formatTimestamp (fmt : String) (t : DateTimeU) : String :=
  fmtGo t fmt.data

/-- The format used for default timestamped file names (lib.rs line
115). -/
def TIMESTAMP_FORMAT : String := "out_%Y_%m%d_%H%S"

/-! ## The `procout` function (lib.rs lines 121-187)

The effectful body is embedded as a function from an explicit environment
(the outcomes the OS hands the process: current directory, directory /
file creation, write, path-to-UTF-8 conversion, clock, rustfmt) and a
filesystem state to a result: either a normal return with the new state,
or a fatal unwind (Rust `expect` aborting the call) carrying the message
and the state at the moment of the failure. -/

/-- Outcomes of the OS interactions a `procout` call performs. An
`Except.error` carries the textual rendering of the underlying
`std::io::Error`. -/
structure Env where
  /-- Result of `env::current_dir()` (line 130): the component list of
  the working directory, or the OS error. -/
  current_dir : Except String (List String)
  /-- Result of `DirBuilder::create` (lines 140-143) on a given
  directory path. -/
  create_dir : List String → Except String Unit
  /-- Result of `File::create` (line 157) on a given file path. -/
  create_file : List String → Except String Unit
  /-- Result of `write_all` (lines 161-173). -/
  write : Except String Unit
  /-- Whether `PathBuf::to_str` succeeds on a given path (line 156):
  true exactly when the OS path is valid UTF-8. -/
  to_str_ok : List String → Bool
  /-- The wall clock read by `Utc::now()` (line 148). -/
  now : DateTimeU
  /-- Result of running `rustfmt` (line 181): the display of the exit
  status on launch, or the debug rendering of the launch error. -/
  rustfmt : Except String String

/-- The observable state a `procout` call touches: directories created,
file contents, and the process's standard output. -/
structure FS where
  dirs : List (List String)
  files : List (List String × String)
  stdout : List String
deriving DecidableEq

/-- Result of a `procout` call: normal return, or a fatal unwind (a Rust
`expect` failure) with the `expect` message, the rendered OS error and
the state at the abort. -/
inductive ProcoutResult where
  | fatal : String → FS → ProcoutResult
  | ok : FS → ProcoutResult
deriving DecidableEq

/-- True on a normal return. -/
def resultOk : ProcoutResult → Bool
  | .ok _ => true
  | .fatal _ _ => false

/-- The state carried by a result. -/
def fsOf : ProcoutResult → FS
  | .ok fs => fs
  | .fatal _ fs => fs

/-- The three compile-time feature toggles (lib.rs lines 126, 175, 179).
`procout_feature` and `procout_messy` model `feature = "procout"` and
`feature = "procout_messy"`; either one enables the component. -/
structure Features where
  procout_feature : Bool
  procout_messy : Bool
  notification : Bool
  formatted : Bool

/-- Record a directory as existing; creating an existing directory is not
an error (`DirBuilder::recursive(true)`, lines 140-142). -/
def insertDir (d : List String) (dirs : List (List String)) :
    List (List String) :=
  if dirs.contains d then dirs else d :: dirs

/-- Overwrite (or create) the file at `p` with `content`
(truncate-and-create `File::create` followed by `write_all`). -/
def setFile (p : List String) (content : String) :
    List (List String × String) → List (List String × String)
  | [] => [(p, content)]
  | (q, c) :: rest =>
      if q = p then (p, content) :: rest else (q, c) :: setFile p content rest

/-- Content of the file at `p`, if any. -/
def lookupFile (p : List String) :
    List (List String × String) → Option String
  | [] => none
  | (q, c) :: rest => if q = p then some c else lookupFile p rest

/-- Target-directory selection (lib.rs lines 128-137): an explicit
`output_path` is used as given (`PathBuf::from`); otherwise the current
working directory with `tests` pushed, the `current_dir` failure
propagating. -/
def resolveTargetDir (env : Env) (output_path : Option String) :
    Except String (List String) :=
  match output_path with
  | some path_str => .ok [path_str]
  | none => env.current_dir.map (fun local_path => local_path ++ ["tests"])

/-- Module-name resolution (lib.rs lines 146-152): the caller's
identifier, or the formatted current time. -/
def moduleNameOf (env : Env) (module_ident : Option String) : String :=
  module_ident.getD (formatTimestamp TIMESTAMP_FORMAT env.now)

/-- File-name derivation (lib.rs line 154): snake-cased module name plus
the `.rs` suffix. -/
def fileNameOf (module_name : String) : String :=
  String.mk (to_snake_case module_name.data) ++ ".rs"

/-- Shallow embedding of `procout` (lib.rs lines 121-187). The caller's
`code_block` token stream, the optional `module_ident` (as its string)
and the optional `output_path` are threaded through the exact step
sequence of the source: gate on the feature, resolve the target path,
create the directory, resolve the module name, derive and push the file
name, convert the path to UTF-8, create the file, write the rendered
text, then optionally notify and optionally run rustfmt. Each `expect`
becomes a `fatal` result carrying the state at the abort. -/
def procout (feat : Features) (env : Env) (fs : FS) (code_block : List Tok)
    (module_ident : Option String) (output_path : Option String) :
    ProcoutResult :=
  if feat.procout_feature || feat.procout_messy then
    match resolveTargetDir env output_path with
    | .error e => .fatal ("Must identify current dir: " ++ e) fs
    | .ok target_dir =>
      match env.create_dir target_dir with
      | .error e => .fatal ("Creates macro output dir: " ++ e) fs
      | .ok _ =>
        let fs1 : FS := { fs with dirs := insertDir target_dir fs.dirs }
        let module_name : String := moduleNameOf env module_ident
        let target_path : List String := target_dir ++ [fileNameOf module_name]
        if env.to_str_ok target_path then
          let target_path_str : String := String.intercalate "/" target_path
          match env.create_file target_path with
          | .error e => .fatal ("Creates macro output file: " ++ e) fs1
          | .ok _ =>
            let fs2 : FS := { fs1 with files := setFile target_path "" fs1.files }
            match env.write with
            | .error e => .fatal ("Writes macro to file as test: " ++ e) fs2
            | .ok _ =>
              let fs3 : FS :=
                { fs2 with files :=
                    setFile target_path (renderedText code_block module_name) fs2.files }
              let fs4 : FS :=
                if feat.notification then
                  { fs3 with stdout :=
                      fs3.stdout ++ ["Wrote macro to `" ++ target_path_str ++ "` "] }
                else fs3
              let fs5 : FS :=
                if feat.formatted then
                  match env.rustfmt with
                  | .ok status =>
                      { fs4 with stdout := fs4.stdout ++ ["rustfmt status: " ++ status] }
                  | .error err =>
                      { fs4 with stdout :=
                          fs4.stdout ++
                            ["Could not rustfmt \"" ++ target_path_str ++ "\":\n " ++ err] }
                else fs4
              .ok fs5
        else .fatal "Must create string from target path" fs1
  else .ok fs

/-! ## Shape of snake-cased names

On digit-free ASCII input the derivation produces a "chunk" word: blocks
of lowercase letters separated by single underscores, with no leading or
trailing underscore, and the derivation fixes such words. Digits break
this (Inflector counts them as uppercase), which is what the
counterexample for C2 exploits. -/

/-- ASCII and not a digit `0`-`9`. -/
def snakeSafe (c : Char) : Bool :=
  c.toNat < 128 && !(48 ≤ c.toNat && c.toNat ≤ 57)

mutual

/-- Valid continuation of a chunk word after a lowercase letter: more
lowercase letters, or an underscore starting a new nonempty block. -/
def chunkTail : List Char → Bool
  | [] => true
  | c :: rest =>
      if is_ascii_lowercase c then chunkTail rest
      else if c = '_' then chunkBlock rest
      else false

/-- A nonempty block: a lowercase letter followed by a valid
continuation. -/
def chunkBlock : List Char → Bool
  | [] => false
  | d :: rest2 => is_ascii_lowercase d && chunkTail rest2

end

/-- A chunk word: empty, or a lowercase letter followed by a valid
continuation. -/
def chunks : List Char → Bool
  | [] => true
  | c :: rest => is_ascii_lowercase c && chunkTail rest

/-- The last character of the input, if any, is alphanumeric (holds after
`trim_right`). -/
def endsAlnum (l : List Char) : Bool :=
  match l.getLast? with
  | some c => is_alphanumeric c
  | none => true

/-! ## Concrete fixtures for witnesses and counterexamples -/

/-- All features on: `procout`, `notification`, `formatted` (the default
feature set plus the master toggle). -/
def featAll : Features := ⟨true, false, true, true⟩

/-- Master toggle off (neither `procout` nor `procout_messy`). -/
def featOff : Features := ⟨false, false, true, true⟩

/-- A benign environment: working directory `work`, every OS call
succeeding, a fixed clock, rustfmt exiting 0. -/
def envH : Env :=
  { current_dir := .ok ["work"]
    create_dir := fun _ => .ok ()
    create_file := fun _ => .ok ()
    write := .ok ()
    to_str_ok := fun _ => true
    now := ⟨2024, 3, 7, 15, 30, 9⟩
    rustfmt := .ok "exit status: 0" }

/-- A fresh state: nothing on disk, nothing printed. -/
def fsEmpty : FS := ⟨[], [], []⟩

/-- The token stream of `const X: i32 = 1;` as a caller builds it with
`quote!` (every punct `Spacing::Alone`). -/
def c4code : List Tok :=
  [.ident "const", .ident "X", .punct ':' false, .ident "i32",
   .punct '=' false, .lit "1", .punct ';' false]

/-- The text the C4 scenario writes to `tests/test_mod.rs`. -/
def c4content : String :=
  "# ! [allow (unused_imports)] # ! [allow (dead_code)] const X : i32 = 1 ; # [test] fn macro_test () \x7b use Test Mod :: * ; \x7d"

/-- Whether `needle` occurs as a contiguous substring of the second
list. -/
def containsSub (needle : List Char) : List Char → Bool
  | [] => needle.isEmpty
  | c :: rest => needle.isPrefixOf (c :: rest) || containsSub needle rest

/-- The state after the first call of the C9 witness scenario. -/
def c9fs1 : FS :=
  { dirs := [["out"]]
    files := [(["out", "my_module.rs"],
      renderedText c4code (moduleNameOf envH (some "MyModule")))]
    stdout := ["Wrote macro to `out/my_module.rs` ",
      "rustfmt status: exit status: 0"] }

/-! ## Sanity checks on concrete inputs -/

example : to_snake_case "MyModule".data = "my_module".data := by decide
example : to_snake_case "my_module".data = "my_module".data := by decide
example : to_snake_case "My-Module".data = "my_module".data := by decide
example : to_snake_case "Test Mod".data = "test_mod".data := by decide
example : to_snake_case "test_procout_module".data = "test_procout_module".data := by decide
example : to_snake_case "AA1".data = "aa1".data := by decide
example : to_snake_case "aa1".data = "aa_1".data := by decide
example : displayList headerToks = directivesText := by decide
example : displayList (footerToks "my_mod") = testFnText "my_mod" := rfl
example :
    renderedText
      [.ident "const", .ident "X", .punct ':' false, .ident "i32",
       .punct '=' false, .lit "1", .punct ';' false] "test_mod" =
    "# ! [allow (unused_imports)] # ! [allow (dead_code)] const X : i32 = 1 ; # [test] fn macro_test () \x7b use test_mod :: * ; \x7d" := by
  decide
example :
    formatTimestamp TIMESTAMP_FORMAT ⟨2024, 3, 7, 15, 30, 9⟩ =
      "out_2024_0307_1509" := by decide

/-! ## General lemmas -/

theorem string_ext (a b : String) (h : a.data = b.data) : a = b := by
  cases a; cases b; exact congrArg String.mk h

theorem displayList_cons (t : Tok) (rest : List Tok) :
    displayList (t :: rest) =
      displayTok t ++
        (if rest.isEmpty then "" else if isJoint t then "" else " ") ++
        displayList rest := by
  rw [displayList]

/-- The stream printer distributes over concatenation: the right part is
separated by one space unless the left part is empty or ends in a joint
punct. -/
theorem displayList_append (xs ys : List Tok) (hy : ys ≠ []) :
    displayList (xs ++ ys) =
      displayList xs ++
        (if xs.isEmpty then "" else if endsJoint xs then "" else " ") ++
        displayList ys := by
  induction xs with
  | nil => simp [displayList, List.isEmpty_nil, String.empty_append]
  | cons t xs ih =>
    cases xs with
    | nil =>
      cases ys with
      | nil => exact absurd rfl hy
      | cons y ys' =>
        simp [displayList, endsJoint, String.append_empty, String.append_assoc]
    | cons u xs' =>
      have hne : ((u :: xs') ++ ys).isEmpty = false := by
        cases ys with
        | nil => exact absurd rfl hy
        | cons a as => rfl
      rw [List.cons_append, displayList_cons, ih, displayList_cons t (u :: xs')]
      simp [hne, endsJoint, List.getLast?_cons_cons, List.isEmpty_cons,
        String.append_assoc]

/-- The trailing test function's rendered text, with the module name
spliced into the wildcard `use`. -/
theorem displayList_footer (m : String) :
    displayList (footerToks m) = testFnText m := by
  apply string_ext
  simp only [footerToks, testFnText, displayList, displayTok, isJoint,
    String.data_append, List.append_assoc, List.isEmpty, String.singleton]
  rfl

/-- The rendered artifact text decomposes into the directives, the
caller's code block text, and the trailing test function. -/
theorem renderedText_eq (code : List Tok) (m : String) :
    renderedText code m =
      directivesText ++ " " ++
        (if code.isEmpty then ""
         else displayList code ++ (if endsJoint code then "" else " ")) ++
        testFnText m := by
  have hfne : footerToks m ≠ [] := by simp [footerToks]
  have hcfne : code ++ footerToks m ≠ [] := by
    cases code <;> simp_all [footerToks]
  have h1 := displayList_append headerToks (code ++ footerToks m) hcfne
  have h2 := displayList_append code (footerToks m) hfne
  have hhead : displayList headerToks = directivesText := by decide
  have hheadne : (headerToks : List Tok).isEmpty = false := rfl
  have hheadnj : endsJoint headerToks = false := rfl
  cases code with
  | nil =>
    rw [renderedText, List.append_assoc, h1, hhead, hheadne, hheadnj,
      List.nil_append, displayList_footer]
    simp [String.append_empty, String.append_assoc]
  | cons c cs =>
    rw [renderedText, List.append_assoc, h1, h2, hhead, hheadne, hheadnj,
      displayList_footer]
    simp [String.append_assoc]

theorem lookupFile_setFile_same (p : List String) (content : String)
    (files : List (List String × String)) :
    lookupFile p (setFile p content files) = some content := by
  induction files with
  | nil => simp [setFile, lookupFile]
  | cons qc rest ih =>
    by_cases h : qc.1 = p <;> simp [setFile, lookupFile, h, ih]

theorem lookupFile_setFile_other (p q : List String) (content : String)
    (files : List (List String × String)) (h : q ≠ p) :
    lookupFile q (setFile p content files) = lookupFile q files := by
  induction files with
  | nil =>
    simp only [setFile, lookupFile]
    rw [if_neg (fun hpq => h hpq.symm)]
  | cons rc rest ih =>
    by_cases h2 : rc.1 = p
    · simp only [setFile, if_pos h2, lookupFile]
      rw [if_neg (fun hpq => h hpq.symm), if_neg (fun hq => h ((h2 ▸ hq : p = q)).symm)]
    · simp only [setFile, if_neg h2, lookupFile, ih]

theorem toNat_ofNat_valid (n : Nat) (h : Nat.isValidChar n) :
    (Char.ofNat n).toNat = n := by
  unfold Char.ofNat
  rw [dif_pos h]
  rfl

theorem alnum_of_lower (c : Char) (h : is_ascii_lowercase c = true) :
    is_alphanumeric c = true := by
  simp only [is_alphanumeric, is_ascii_lowercase, Bool.or_eq_true]
  right
  exact h

theorem sep_of_lower (c : Char) (h : is_ascii_lowercase c = true) :
    char_is_seperator c = false := by
  simp [char_is_seperator, alnum_of_lower c h]

theorem not_upper_of_lower (c : Char) (h : is_ascii_lowercase c = true) :
    char_is_uppercase c = false := by
  have hb : 97 ≤ c.toNat ∧ c.toNat ≤ 122 := by
    simpa [is_ascii_lowercase] using h
  have hv : Nat.isValidChar (c.toNat - 32) := Or.inl (by omega)
  have hval : (Char.ofNat (c.toNat - 32)).toNat = c.toNat - 32 :=
    toNat_ofNat_valid _ hv
  simp only [char_is_uppercase, to_ascii_uppercase, h, if_true]
  rw [beq_eq_false_iff_ne]
  intro heq
  have h2 : c.toNat = c.toNat - 32 := by
    conv_lhs => rw [heq]
    exact hval
  omega

theorem to_lower_id_of_lower (c : Char) (h : is_ascii_lowercase c = true) :
    to_ascii_lowercase c = c := by
  have hb : 97 ≤ c.toNat ∧ c.toNat ≤ 122 := by
    simpa [is_ascii_lowercase] using h
  rw [to_ascii_lowercase, if_neg]
  simp only [is_ascii_uppercase, Bool.and_eq_true, decide_eq_true_eq,
    Bool.not_eq_true]
  omega

theorem lower_of_safe_alnum (c : Char) (hs : snakeSafe c = true)
    (ha : is_alphanumeric c = true) :
    is_ascii_lowercase (to_ascii_lowercase c) = true := by
  have h128 : c.toNat < 128 ∧ (c.toNat < 48 ∨ 57 < c.toNat) := by
    simpa [snakeSafe, Bool.and_eq_true, decide_eq_true_eq] using hs
  have halnum : (48 ≤ c.toNat ∧ c.toNat ≤ 57) ∨ (65 ≤ c.toNat ∧ c.toNat ≤ 90)
      ∨ (97 ≤ c.toNat ∧ c.toNat ≤ 122) := by
    simpa [is_alphanumeric, is_ascii_uppercase, is_ascii_lowercase,
      Bool.or_eq_true, Bool.and_eq_true, decide_eq_true_eq, or_assoc] using ha
  rcases halnum with hd | hu | hl
  · exfalso
    rcases h128.2 with h2 | h2 <;> omega
  · have hv : Nat.isValidChar (c.toNat + 32) := Or.inl (by omega)
    rw [to_ascii_lowercase, if_pos]
    · simp only [is_ascii_lowercase, toNat_ofNat_valid _ hv,
        Bool.and_eq_true, decide_eq_true_eq]
      omega
    · simp only [is_ascii_uppercase, Bool.and_eq_true, decide_eq_true_eq]
      omega
  · rw [to_lower_id_of_lower c (by
      simp only [is_ascii_lowercase, Bool.and_eq_true, decide_eq_true_eq]
      omega)]
    simp only [is_ascii_lowercase, Bool.and_eq_true, decide_eq_true_eq]
    omega

theorem snake_go_cons (prev : Option Char) (fc : Bool) (c : Char)
    (rest : List Char) :
    snake_go prev fc (c :: rest) =
      if char_is_seperator c then
        (if fc then [] else ['_']) ++ snake_go (some c) true rest
      else if requires_seperator c fc prev rest.head? then
        '_' :: to_ascii_lowercase c :: snake_go (some c) false rest
      else to_ascii_lowercase c :: snake_go (some c) false rest := by
  rw [snake_go]

/-- The derivation walk fixes chunk words (with `chunkTail` words as the
states reached right after a letter). -/
theorem snake_go_of_chunks (l : List Char) :
    ∀ (prev : Option Char) (fc : Bool),
      cond fc (chunks l) (chunkTail l) = true →
      snake_go prev fc l = l := by
  induction l with
  | nil => intro prev fc _; cases fc <;> rfl
  | cons c rest ih =>
    intro prev fc h
    by_cases hl : is_ascii_lowercase c = true
    · have hrest : chunkTail rest = true := by
        cases fc with
        | true =>
          have h' : chunks (c :: rest) = true := h
          simp only [chunks, Bool.and_eq_true] at h'
          exact h'.2
        | false =>
          have h' : chunkTail (c :: rest) = true := h
          rw [chunkTail, if_pos hl] at h'
          exact h'
      rw [snake_go_cons, if_neg (by simp [sep_of_lower c hl]),
        if_neg (by simp [requires_seperator, not_upper_of_lower c hl]),
        to_lower_id_of_lower c hl, ih (some c) false hrest]
    · cases fc with
      | true =>
        have h' : chunks (c :: rest) = true := h
        simp only [chunks, Bool.and_eq_true] at h'
        exact absurd h'.1 hl
      | false =>
        have h' : chunkTail (c :: rest) = true := h
        rw [chunkTail, if_neg hl] at h'
        by_cases hc : c = '_'
        · rw [if_pos hc] at h'
          subst hc
          cases rest with
          | nil => exact absurd h' (by simp [chunkBlock])
          | cons d rest2 =>
            have hsep : char_is_seperator '_' = true := by decide
            rw [snake_go_cons, if_pos hsep]
            rw [ih (some '_') true (by
              show chunks (d :: rest2) = true
              rw [chunkBlock] at h'
              simpa only [chunks] using h')]
            rfl
        · rw [if_neg hc] at h'
          exact absurd h' (by simp)

/-- The derivation walk sends digit-free trimmed ASCII input to chunk
words: nonempty when the input is nonempty (for `fc = true`), a valid
continuation (for `fc = false`). -/
theorem snake_go_shape (l : List Char) :
    ∀ (prev : Option Char),
      (∀ c ∈ l, snakeSafe c = true) → endsAlnum l = true →
      (chunks (snake_go prev true l) = true
        ∧ (l ≠ [] → snake_go prev true l ≠ []))
      ∧ chunkTail (snake_go prev false l) = true := by
  induction l with
  | nil =>
    intro prev _ _
    exact ⟨⟨rfl, fun h => absurd rfl h⟩, rfl⟩
  | cons c rest ih =>
    intro prev hsafe hend
    have hsafer : ∀ d ∈ rest, snakeSafe d = true := fun d hd =>
      hsafe d (List.mem_cons_of_mem _ hd)
    have hendr : endsAlnum rest = true := by
      cases rest with
      | nil => rfl
      | cons d rest2 =>
        simpa only [endsAlnum, List.getLast?_cons_cons] using hend
    obtain ⟨⟨ihc, ihne⟩, iht⟩ := ih (some c) hsafer hendr
    by_cases hsep : char_is_seperator c = true
    · have hrestne : rest ≠ [] := by
        intro hr
        subst hr
        have halnum : is_alphanumeric c = true := by
          simpa [endsAlnum] using hend
        simp [char_is_seperator, halnum] at hsep
      refine ⟨⟨?_, ?_⟩, ?_⟩
      · rw [snake_go_cons, if_pos hsep]
        simpa using ihc
      · intro _
        rw [snake_go_cons, if_pos hsep]
        simpa using ihne hrestne
      · rw [snake_go_cons, if_pos hsep]
        cases hout : snake_go (some c) true rest with
        | nil => exact absurd hout (ihne hrestne)
        | cons d t =>
          have hch : chunks (d :: t) = true := hout ▸ ihc
          rw [chunks, Bool.and_eq_true] at hch
          show chunkTail ('_' :: d :: t) = true
          rw [chunkTail, if_neg (by decide), if_pos rfl, chunkBlock]
          simp [hch.1, hch.2]
    · have halnum : is_alphanumeric c = true := by
        cases ha : is_alphanumeric c with
        | true => rfl
        | false =>
          exact absurd
            (show char_is_seperator c = true by simp [char_is_seperator, ha])
            hsep
      have hlow : is_ascii_lowercase (to_ascii_lowercase c) = true :=
        lower_of_safe_alnum c (hsafe c (List.mem_cons_self c rest)) halnum
      refine ⟨⟨?_, ?_⟩, ?_⟩
      · rw [snake_go_cons, if_neg hsep, if_neg (by simp [requires_seperator])]
        rw [chunks, Bool.and_eq_true]
        exact ⟨hlow, iht⟩
      · intro _
        rw [snake_go_cons, if_neg hsep, if_neg (by simp [requires_seperator])]
        simp
      · by_cases hreq : requires_seperator c false prev rest.head? = true
        · rw [snake_go_cons, if_neg hsep, if_pos hreq]
          rw [chunkTail, if_neg (by decide), if_pos rfl, chunkBlock,
            Bool.and_eq_true]
          exact ⟨hlow, iht⟩
        · rw [snake_go_cons, if_neg hsep, if_neg hreq]
          rw [chunkTail, if_pos hlow]
          exact iht

theorem mem_of_mem_dropWhile {α : Type} (p : α → Bool) :
    ∀ {l : List α} {a : α}, a ∈ l.dropWhile p → a ∈ l := by
  intro l
  induction l with
  | nil => intro a h; simp at h
  | cons x xs ih =>
    intro a h
    by_cases hp : p x = true
    · rw [List.dropWhile_cons, if_pos hp] at h
      exact List.mem_cons_of_mem _ (ih h)
    · rw [List.dropWhile_cons, if_neg hp] at h
      exact h

theorem head?_dropWhile_false {α : Type} (p : α → Bool) :
    ∀ (l : List α) {a : α}, (l.dropWhile p).head? = some a → p a = false := by
  intro l
  induction l with
  | nil => intro a h; simp [List.dropWhile] at h
  | cons x xs ih =>
    intro a h
    cases hp : p x with
    | true =>
      rw [List.dropWhile_cons, if_pos hp] at h
      exact ih h
    | false =>
      rw [List.dropWhile_cons, if_neg (by simp [hp])] at h
      simp only [List.head?_cons, Option.some.injEq] at h
      rw [← h]
      exact hp

theorem mem_trim_right {c : Char} {l : List Char} (h : c ∈ trim_right l) :
    c ∈ l := by
  rw [trim_right] at h
  exact List.mem_reverse.mp
    (mem_of_mem_dropWhile _ (List.mem_reverse.mp h))

theorem endsAlnum_trim_right (l : List Char) :
    endsAlnum (trim_right l) = true := by
  rw [trim_right, endsAlnum, List.getLast?_reverse]
  cases hh : (l.reverse.dropWhile char_is_seperator).head? with
  | none => rfl
  | some c =>
    have hns := head?_dropWhile_false char_is_seperator l.reverse hh
    have halnum : is_alphanumeric c = true := by
      cases ha : is_alphanumeric c with
      | true => rfl
      | false =>
        rw [char_is_seperator, ha] at hns
        simp at hns
    simpa using halnum

/-- The derived name of digit-free ASCII input is a chunk word. -/
theorem to_snake_case_chunks (l : List Char)
    (hsafe : ∀ c ∈ l, snakeSafe c = true) :
    chunks (to_snake_case l) = true :=
  ((snake_go_shape (trim_right l) none
      (fun c hc => hsafe c (mem_trim_right hc))
      (endsAlnum_trim_right l)).1).1

theorem chunkTail_getLast_lower : ∀ (l : List Char), chunkTail l = true →
    ∀ {c : Char}, l.getLast? = some c → is_ascii_lowercase c = true := by
  intro l
  induction l with
  | nil => intro _ c h; simp at h
  | cons x rest ih =>
    intro h c hc
    cases hx : is_ascii_lowercase x with
    | true =>
      rw [chunkTail, if_pos hx] at h
      cases rest with
      | nil =>
        simp only [List.getLast?_singleton, Option.some.injEq] at hc
        rw [← hc]
        exact hx
      | cons d r2 =>
        rw [List.getLast?_cons_cons] at hc
        exact ih h hc
    | false =>
      rw [chunkTail, if_neg (by simp [hx])] at h
      by_cases hu : x = '_'
      · rw [if_pos hu] at h
        cases rest with
        | nil => simp [chunkBlock] at h
        | cons d r2 =>
          rw [chunkBlock, Bool.and_eq_true] at h
          rw [List.getLast?_cons_cons] at hc
          exact ih (by rw [chunkTail, if_pos h.1]; exact h.2) hc
      · rw [if_neg hu] at h
        simp at h

theorem chunks_getLast_lower (l : List Char) (h : chunks l = true)
    {c : Char} (hc : l.getLast? = some c) : is_ascii_lowercase c = true := by
  cases l with
  | nil => simp at hc
  | cons x rest =>
    rw [chunks, Bool.and_eq_true] at h
    cases rest with
    | nil =>
      simp only [List.getLast?_singleton, Option.some.injEq] at hc
      rw [← hc]
      exact h.1
    | cons d r2 =>
      rw [List.getLast?_cons_cons] at hc
      exact chunkTail_getLast_lower _ h.2 hc

/-- Trimming does nothing to a chunk word: it never ends in a
separator. -/
theorem trim_right_of_chunks (l : List Char) (h : chunks l = true) :
    trim_right l = l := by
  rw [trim_right]
  suffices hs : l.reverse.dropWhile char_is_seperator = l.reverse by
    rw [hs, List.reverse_reverse]
  cases hr : l.reverse with
  | nil => rfl
  | cons x xs =>
    have hlast : l.getLast? = some x := by
      rw [← List.head?_reverse, hr]
      rfl
    have hlow := chunks_getLast_lower l h hlast
    rw [List.dropWhile_cons, if_neg (by simp [sep_of_lower x hlow])]

/-- On digit-free ASCII input the derivation is idempotent. -/
theorem to_snake_case_idem (l : List Char)
    (hsafe : ∀ c ∈ l, snakeSafe c = true) :
    to_snake_case (to_snake_case l) = to_snake_case l := by
  have hch := to_snake_case_chunks l hsafe
  show snake_go none true (trim_right (to_snake_case l)) = to_snake_case l
  rw [trim_right_of_chunks _ hch]
  exact snake_go_of_chunks _ none true hch

/-- A successful enabled run: normal return, the target directory
recorded, the file truncated then overwritten with the rendered text, and
standard output only appended to. -/
theorem procout_enabled_run (feat : Features) (env : Env) (fs : FS)
    (code_block : List Tok) (module_ident : Option String)
    (output_path : Option String) (target_dir : List String)
    (hen : (feat.procout_feature || feat.procout_messy) = true)
    (hres : resolveTargetDir env output_path = .ok target_dir)
    (hdir : env.create_dir target_dir = .ok ())
    (hstr : env.to_str_ok
      (target_dir ++ [fileNameOf (moduleNameOf env module_ident)]) = true)
    (hfile : env.create_file
      (target_dir ++ [fileNameOf (moduleNameOf env module_ident)]) = .ok ())
    (hwrite : env.write = .ok ()) :
    ∃ fs' : FS,
      procout feat env fs code_block module_ident output_path = .ok fs'
      ∧ fs'.dirs = insertDir target_dir fs.dirs
      ∧ fs'.files =
          setFile (target_dir ++ [fileNameOf (moduleNameOf env module_ident)])
            (renderedText code_block (moduleNameOf env module_ident))
            (setFile (target_dir ++ [fileNameOf (moduleNameOf env module_ident)])
              "" fs.files)
      ∧ ∃ extra : List String, fs'.stdout = fs.stdout ++ extra := by
  simp only [procout, hen, hres, hdir, hstr, hfile, hwrite, if_true]
  cases hn : feat.notification <;> cases hf : feat.formatted <;>
    cases hr : env.rustfmt <;>
    first
      | exact ⟨_, rfl, rfl, rfl, [], (List.append_nil _).symm⟩
      | exact ⟨_, rfl, rfl, rfl, _, rfl⟩
      | exact ⟨_, rfl, rfl, rfl, _, List.append_assoc _ _ _⟩

theorem ok_of_resultOk (r : ProcoutResult) (h : resultOk r = true) :
    r = .ok (fsOf r) := by
  cases r with
  | ok fs => rfl
  | fatal m fs => simp [resultOk] at h

/-- The strftime expansion of `TIMESTAMP_FORMAT`. -/
theorem formatTimestamp_spec (t : DateTimeU) :
    formatTimestamp TIMESTAMP_FORMAT t =
      "out_" ++ pad4 t.year ++ "_" ++ pad2 t.month ++ pad2 t.day ++ "_" ++
        pad2 t.hour ++ pad2 t.second := by
  apply string_ext
  show (fmtGo t ['o', 'u', 't', '_', '%', 'Y', '_', '%', 'm', '%', 'd', '_',
    '%', 'H', '%', 'S']).data = _
  simp only [fmtGo, String.data_append, List.append_assoc, List.append_nil]
  rfl

/-! ## The claims -/

/-- C1: for every code block, module name and output path, when the
master enable is on (and the OS calls succeed), the text written to the
resolved file is exactly the two suppression directives
(`allow (unused_imports)` and `allow (dead_code)`), then the caller's
code block text verbatim, then the trailing no-op test function whose
sole statement is a wildcard `use` of the resolved module's namespace —
before any formatter runs. -/
theorem procout_c1_rendered_structure
    (feat : Features) (env : Env) (fs : FS) (code_block : List Tok)
    (module_ident : Option String) (output_path : Option String)
    (target_dir : List String)
    (hen : (feat.procout_feature || feat.procout_messy) = true)
    (hres : resolveTargetDir env output_path = .ok target_dir)
    (hdir : env.create_dir target_dir = .ok ())
    (hstr : env.to_str_ok
      (target_dir ++ [fileNameOf (moduleNameOf env module_ident)]) = true)
    (hfile : env.create_file
      (target_dir ++ [fileNameOf (moduleNameOf env module_ident)]) = .ok ())
    (hwrite : env.write = .ok ()) :
    ∃ fs' : FS,
      procout feat env fs code_block module_ident output_path = .ok fs'
      ∧ lookupFile (target_dir ++ [fileNameOf (moduleNameOf env module_ident)])
          fs'.files
        = some (directivesText ++ " " ++
            (if code_block.isEmpty then ""
             else displayList code_block ++
               (if endsJoint code_block then "" else " ")) ++
            testFnText (moduleNameOf env module_ident)) := by
  obtain ⟨fs', hok, hdirs, hfiles, hstdout⟩ :=
    procout_enabled_run feat env fs code_block module_ident output_path
      target_dir hen hres hdir hstr hfile hwrite
  refine ⟨fs', hok, ?_⟩
  rw [hfiles, lookupFile_setFile_same, renderedText_eq]

theorem procout_c1_rendered_structure_witness :
    ∃ fs' : FS,
      procout featAll envH fsEmpty c4code (some "MyModule") (some "out")
        = .ok fs'
      ∧ lookupFile (["out"] ++ [fileNameOf (moduleNameOf envH (some "MyModule"))])
          fs'.files
        = some (directivesText ++ " " ++
            (if c4code.isEmpty then ""
             else displayList c4code ++ (if endsJoint c4code then "" else " ")) ++
            testFnText (moduleNameOf envH (some "MyModule"))) :=
  procout_c1_rendered_structure featAll envH fsEmpty c4code (some "MyModule")
    (some "out") ["out"] rfl rfl rfl rfl rfl rfl

/-- C2 as stated fails on the code: the derivation is not idempotent on
every already-derived name. Deriving from `AA1` yields `aa1` (the digit,
counted as uppercase by the derivation, has no lowercase neighbour in
`AA1`), but deriving again from `aa1` yields `aa_1` (in `aa1` the digit's
previous character is lowercase). -/
theorem procout_c2_idempotence_counterexample :
    to_snake_case "AA1".data = "aa1".data
    ∧ to_snake_case (to_snake_case "AA1".data) = "aa_1".data
    ∧ to_snake_case (to_snake_case "AA1".data) ≠ to_snake_case "AA1".data := by
  refine ⟨by decide, by decide, by decide⟩

/-- C2 amended: deriving from `MyModule`, `my_module` and `My-Module`
each yields the same lowercase snake_case base name `my_module`, and the
derivation is idempotent on digit-free ASCII names (in particular it
returns every such already-derived name unchanged); idempotence fails in
general only when digits are involved. -/
theorem procout_c2_snake_case_amended :
    to_snake_case "MyModule".data = "my_module".data
    ∧ to_snake_case "my_module".data = "my_module".data
    ∧ to_snake_case "My-Module".data = "my_module".data
    ∧ ∀ l : List Char, (∀ c ∈ l, snakeSafe c = true) →
        to_snake_case (to_snake_case l) = to_snake_case l :=
  ⟨by decide, by decide, by decide, to_snake_case_idem⟩

theorem procout_c2_snake_case_amended_witness :
    (∀ c ∈ "My-Module".data, snakeSafe c = true)
    ∧ to_snake_case (to_snake_case "My-Module".data)
        = to_snake_case "My-Module".data :=
  ⟨by decide,
   procout_c2_snake_case_amended.2.2.2 "My-Module".data (by decide)⟩

/-- C3: with the master enable off, a call is a no-op for every input,
including environments where every OS call would fail: the state
(directories, files, standard output) is returned unchanged and no fatal
abort occurs. -/
theorem procout_c3_disabled_noop
    (feat : Features) (env : Env) (fs : FS) (code_block : List Tok)
    (module_ident : Option String) (output_path : Option String)
    (hoff : feat.procout_feature = false)
    (hoff2 : feat.procout_messy = false) :
    procout feat env fs code_block module_ident output_path = .ok fs := by
  simp [procout, hoff, hoff2]

theorem procout_c3_disabled_noop_witness :
    procout featOff
      { envH with
          current_dir := .error "Permission denied (os error 13)"
          create_dir := fun _ => .error "Read-only file system (os error 30)"
          write := .error "No space left on device (os error 28)" }
      fsEmpty c4code none none = .ok fsEmpty :=
  procout_c3_disabled_noop featOff _ fsEmpty c4code none none rfl rfl

/-- C4 as stated fails on the code: in the end-to-end scenario
(`const X: i32 = 1;`, module name `Test Mod`, no output path, fresh
working directory) the file is indeed `tests/test_mod.rs` under the
working directory, but the wildcard import in the trailing test function
uses the resolved module identifier `Test Mod` verbatim — not the
snake_case-derived name `test_mod`, which appears only in the file
name. -/
theorem procout_c4_import_name_counterexample :
    resultOk (procout featAll envH fsEmpty c4code (some "Test Mod") none) = true
    ∧ lookupFile ["work", "tests", "test_mod.rs"]
        (fsOf (procout featAll envH fsEmpty c4code (some "Test Mod") none)).files
      = some c4content
    ∧ containsSub "use Test Mod :: *".data c4content.data = true
    ∧ containsSub "test_mod :: *".data c4content.data = false
    ∧ containsSub "use test_mod".data c4content.data = false := by
  refine ⟨by decide, by decide, by decide, by decide, by decide⟩

/-- C4 amended: the end-to-end scenario `emit(const X: i32 = 1;,
moduleName = Test Mod, outputPath = absent)` on a fresh working directory
produces the file `tests/test_mod.rs` under the working directory (the
snake_case-derived name gives the file name), containing the two
suppression directives, the code text, and a trailing test function whose
wildcard import references the resolved module name `Test Mod`. -/
theorem procout_c4_end_to_end_amended
    (env : Env) (fs : FS) (cwd : List String)
    (hcwd : env.current_dir = .ok cwd)
    (hdir : env.create_dir (cwd ++ ["tests"]) = .ok ())
    (hstr : env.to_str_ok (cwd ++ ["tests", "test_mod.rs"]) = true)
    (hfile : env.create_file (cwd ++ ["tests", "test_mod.rs"]) = .ok ())
    (hwrite : env.write = .ok ()) :
    ∃ fs' : FS,
      procout featAll env fs c4code (some "Test Mod") none = .ok fs'
      ∧ lookupFile (cwd ++ ["tests", "test_mod.rs"]) fs'.files
        = some (directivesText ++ " " ++ "const X : i32 = 1 ; " ++
            testFnText "Test Mod") := by
  have hpath : cwd ++ ["tests", "test_mod.rs"]
      = (cwd ++ ["tests"]) ++ [fileNameOf (moduleNameOf env (some "Test Mod"))] := by
    rw [List.append_assoc]
    rfl
  obtain ⟨fs', hok, hdirs, hfiles, hstdout⟩ :=
    procout_enabled_run featAll env fs c4code (some "Test Mod") none
      (cwd ++ ["tests"]) rfl
      (by simp [resolveTargetDir, hcwd, Except.map])
      hdir (by rw [← hpath]; exact hstr) (by rw [← hpath]; exact hfile) hwrite
  refine ⟨fs', hok, ?_⟩
  rw [hpath, hfiles, lookupFile_setFile_same, renderedText_eq,
    show moduleNameOf env (some "Test Mod") = "Test Mod" from rfl]
  decide

theorem procout_c4_end_to_end_amended_witness :
    ∃ fs' : FS,
      procout featAll envH fsEmpty c4code (some "Test Mod") none = .ok fs'
      ∧ lookupFile (["work"] ++ ["tests", "test_mod.rs"]) fs'.files
        = some (directivesText ++ " " ++ "const X : i32 = 1 ; " ++
            testFnText "Test Mod") :=
  procout_c4_end_to_end_amended envH fsEmpty ["work"] rfl rfl rfl rfl rfl

/-- C5: when `module_ident` is absent the default module name is the
current wall-clock time formatted with the fixed pattern
`out_%Y_%m%d_%H%S`, which expands to year, month, day, hour and second
fields and reads no minutes field: two instants differing only in the
minute produce the same default name. -/
theorem procout_c5_timestamp_format :
    (∀ t : DateTimeU,
      formatTimestamp TIMESTAMP_FORMAT t =
        "out_" ++ pad4 t.year ++ "_" ++ pad2 t.month ++ pad2 t.day ++ "_" ++
          pad2 t.hour ++ pad2 t.second)
    ∧ (∀ t₁ t₂ : DateTimeU, t₁.year = t₂.year → t₁.month = t₂.month →
        t₁.day = t₂.day → t₁.hour = t₂.hour → t₁.second = t₂.second →
        formatTimestamp TIMESTAMP_FORMAT t₁ = formatTimestamp TIMESTAMP_FORMAT t₂)
    ∧ (∀ env : Env, moduleNameOf env none = formatTimestamp TIMESTAMP_FORMAT env.now) := by
  refine ⟨formatTimestamp_spec, ?_, fun env => rfl⟩
  intro t₁ t₂ hy hm hd hh hs
  rw [formatTimestamp_spec t₁, formatTimestamp_spec t₂, hy, hm, hd, hh, hs]

theorem procout_c5_timestamp_format_witness :
    formatTimestamp TIMESTAMP_FORMAT ⟨2024, 3, 7, 15, 30, 9⟩
      = formatTimestamp TIMESTAMP_FORMAT ⟨2024, 3, 7, 15, 59, 9⟩
    ∧ formatTimestamp TIMESTAMP_FORMAT ⟨2024, 3, 7, 15, 30, 9⟩
      = "out_2024_0307_1509" :=
  ⟨procout_c5_timestamp_format.2.1 ⟨2024, 3, 7, 15, 30, 9⟩ ⟨2024, 3, 7, 15, 59, 9⟩
      rfl rfl rfl rfl rfl,
   by decide⟩

/-- C6: when `output_path` is absent the resolved target directory is the
process's current working directory with `tests` appended; when it is
given, the supplied path string is used as the target directory as
is. -/
theorem procout_c6_target_dir_resolution (env : Env) (cwd : List String)
    (p : String) (hcwd : env.current_dir = .ok cwd) :
    resolveTargetDir env none = .ok (cwd ++ ["tests"])
    ∧ resolveTargetDir env (some p) = .ok [p] := by
  constructor
  · simp [resolveTargetDir, hcwd, Except.map]
  · rfl

theorem procout_c6_target_dir_resolution_witness :
    resolveTargetDir envH none = .ok (["work"] ++ ["tests"])
    ∧ resolveTargetDir envH (some "some/dir") = .ok ["some/dir"] :=
  procout_c6_target_dir_resolution envH ["work"] "some/dir" rfl

/-- C7: each environment failure on the mandatory path aborts the enabled
call at once as a fatal failure carrying the underlying OS error, with no
retry and no cleanup: a current-directory failure aborts before any state
change; a directory-creation failure likewise; a file-creation failure
aborts with the directory already recorded; a write failure aborts with
the directory recorded and the file already truncated. -/
theorem procout_c7_env_errors_fatal
    (feat : Features) (env : Env) (fs : FS) (code_block : List Tok)
    (module_ident : Option String)
    (hen : (feat.procout_feature || feat.procout_messy) = true) :
    (∀ e, env.current_dir = .error e →
      procout feat env fs code_block module_ident none =
        .fatal ("Must identify current dir: " ++ e) fs)
    ∧ (∀ output_path target_dir e,
        resolveTargetDir env output_path = .ok target_dir →
        env.create_dir target_dir = .error e →
        procout feat env fs code_block module_ident output_path =
          .fatal ("Creates macro output dir: " ++ e) fs)
    ∧ (∀ output_path target_dir e,
        resolveTargetDir env output_path = .ok target_dir →
        env.create_dir target_dir = .ok () →
        env.to_str_ok
          (target_dir ++ [fileNameOf (moduleNameOf env module_ident)]) = true →
        env.create_file
          (target_dir ++ [fileNameOf (moduleNameOf env module_ident)]) = .error e →
        procout feat env fs code_block module_ident output_path =
          .fatal ("Creates macro output file: " ++ e)
            { fs with dirs := insertDir target_dir fs.dirs })
    ∧ (∀ output_path target_dir e,
        resolveTargetDir env output_path = .ok target_dir →
        env.create_dir target_dir = .ok () →
        env.to_str_ok
          (target_dir ++ [fileNameOf (moduleNameOf env module_ident)]) = true →
        env.create_file
          (target_dir ++ [fileNameOf (moduleNameOf env module_ident)]) = .ok () →
        env.write = .error e →
        procout feat env fs code_block module_ident output_path =
          .fatal ("Writes macro to file as test: " ++ e)
            { fs with
                dirs := insertDir target_dir fs.dirs
                files := setFile
                  (target_dir ++ [fileNameOf (moduleNameOf env module_ident)])
                  "" fs.files }) := by
  refine ⟨?_, ?_, ?_, ?_⟩
  · intro e he
    simp [procout, hen, resolveTargetDir, he, Except.map]
  · intro output_path target_dir e hres hcd
    simp [procout, hen, hres, hcd]
  · intro output_path target_dir e hres hcd hstr hcf
    simp [procout, hen, hres, hcd, hstr, hcf]
  · intro output_path target_dir e hres hcd hstr hcf hw
    simp [procout, hen, hres, hcd, hstr, hcf, hw]

theorem procout_c7_env_errors_fatal_witness :
    procout featAll { envH with current_dir := .error "os error 13" }
      fsEmpty c4code none none
      = .fatal ("Must identify current dir: " ++ "os error 13") fsEmpty
    ∧ procout featAll { envH with write := .error "os error 28" }
      fsEmpty c4code (some "MyModule") (some "out")
      = .fatal ("Writes macro to file as test: " ++ "os error 28")
          { fsEmpty with
              dirs := insertDir ["out"] fsEmpty.dirs
              files := setFile
                (["out"] ++ [fileNameOf (moduleNameOf
                  { envH with write := .error "os error 28" } (some "MyModule"))])
                "" fsEmpty.files } :=
  ⟨(procout_c7_env_errors_fatal featAll _ fsEmpty c4code none rfl).1
      "os error 13" rfl,
   (procout_c7_env_errors_fatal featAll _ fsEmpty c4code (some "MyModule")
      rfl).2.2.2 (some "out") ["out"] "os error 28" rfl rfl rfl rfl rfl⟩

/-- C8: the formatter step is never escalated and never rolls back the
write: whatever the outcome of running the external formatter — launch
failure, nonzero exit, or success — the enabled call returns normally and
the artifact file holds exactly the text the call wrote. -/
theorem procout_c8_formatter_nonfatal
    (feat : Features) (env : Env) (fs : FS) (code_block : List Tok)
    (module_ident : Option String) (output_path : Option String)
    (target_dir : List String)
    (hen : (feat.procout_feature || feat.procout_messy) = true)
    (hres : resolveTargetDir env output_path = .ok target_dir)
    (hdir : env.create_dir target_dir = .ok ())
    (hstr : env.to_str_ok
      (target_dir ++ [fileNameOf (moduleNameOf env module_ident)]) = true)
    (hfile : env.create_file
      (target_dir ++ [fileNameOf (moduleNameOf env module_ident)]) = .ok ())
    (hwrite : env.write = .ok ()) :
    ∀ fmt_result : Except String String,
      ∃ fs' : FS,
        procout feat { env with rustfmt := fmt_result } fs code_block
          module_ident output_path = .ok fs'
        ∧ lookupFile
            (target_dir ++ [fileNameOf (moduleNameOf env module_ident)])
            fs'.files
          = some (renderedText code_block (moduleNameOf env module_ident)) := by
  intro fmt_result
  obtain ⟨fs', hok, hdirs, hfiles, hstdout⟩ :=
    procout_enabled_run feat { env with rustfmt := fmt_result } fs code_block
      module_ident output_path target_dir hen hres hdir hstr hfile hwrite
  rw [show moduleNameOf { env with rustfmt := fmt_result } module_ident
        = moduleNameOf env module_ident from rfl] at hfiles
  exact ⟨fs', hok, by rw [hfiles, lookupFile_setFile_same]⟩

theorem procout_c8_formatter_nonfatal_witness :
    ∃ fs' : FS,
      procout featAll { envH with rustfmt := .error "No such file or directory (os error 2)" }
        fsEmpty c4code (some "MyModule") (some "out") = .ok fs'
      ∧ lookupFile (["out"] ++ [fileNameOf (moduleNameOf envH (some "MyModule"))])
          fs'.files
        = some (renderedText c4code (moduleNameOf envH (some "MyModule"))) :=
  procout_c8_formatter_nonfatal featAll envH fsEmpty c4code (some "MyModule")
    (some "out") ["out"] rfl rfl rfl rfl rfl rfl
    (.error "No such file or directory (os error 2)")

/-- C9: the write overwrites: after a first enabled call returning
normally, a second enabled call resolving to the same target path leaves
that file holding exactly the second call's rendered text — independent
of the first call's content, with no merge or append — and touches no
other file (no backup copy). -/
theorem procout_c9_overwrite
    (feat : Features) (env₁ env₂ : Env) (fsA fs₁ : FS)
    (code₁ code₂ : List Tok) (mi₁ mi₂ : Option String)
    (op₁ op₂ : Option String) (target_dir : List String)
    (_hfirst : procout feat env₁ fsA code₁ mi₁ op₁ = .ok fs₁)
    (hen : (feat.procout_feature || feat.procout_messy) = true)
    (hres : resolveTargetDir env₂ op₂ = .ok target_dir)
    (hdir : env₂.create_dir target_dir = .ok ())
    (hstr : env₂.to_str_ok
      (target_dir ++ [fileNameOf (moduleNameOf env₂ mi₂)]) = true)
    (hfile : env₂.create_file
      (target_dir ++ [fileNameOf (moduleNameOf env₂ mi₂)]) = .ok ())
    (hwrite : env₂.write = .ok ()) :
    ∃ fs₂ : FS,
      procout feat env₂ fs₁ code₂ mi₂ op₂ = .ok fs₂
      ∧ lookupFile (target_dir ++ [fileNameOf (moduleNameOf env₂ mi₂)])
          fs₂.files
        = some (renderedText code₂ (moduleNameOf env₂ mi₂))
      ∧ ∀ q, q ≠ target_dir ++ [fileNameOf (moduleNameOf env₂ mi₂)] →
          lookupFile q fs₂.files = lookupFile q fs₁.files := by
  obtain ⟨fs₂, hok, hdirs, hfiles, hstdout⟩ :=
    procout_enabled_run feat env₂ fs₁ code₂ mi₂ op₂ target_dir hen hres hdir
      hstr hfile hwrite
  refine ⟨fs₂, hok, ?_, ?_⟩
  · rw [hfiles, lookupFile_setFile_same]
  · intro q hq
    rw [hfiles, lookupFile_setFile_other _ _ _ _ hq,
      lookupFile_setFile_other _ _ _ _ hq]

theorem procout_c9_overwrite_witness :
    ∃ fs₂ : FS,
      procout featAll envH c9fs1 [] (some "MyModule") (some "out") = .ok fs₂
      ∧ lookupFile (["out"] ++ [fileNameOf (moduleNameOf envH (some "MyModule"))])
          fs₂.files
        = some (renderedText [] (moduleNameOf envH (some "MyModule")))
      ∧ ∀ q, q ≠ ["out"] ++ [fileNameOf (moduleNameOf envH (some "MyModule"))] →
          lookupFile q fs₂.files = lookupFile q c9fs1.files :=
  procout_c9_overwrite featAll envH envH fsEmpty c9fs1 c4code []
    (some "MyModule") (some "MyModule") (some "out") (some "out") ["out"]
    (by decide) rfl rfl rfl rfl rfl rfl

/-- C10: if the resolved target file path is not representable as UTF-8,
the enabled call aborts fatally after recording the target directory but
before creating or writing the output file (the file map is untouched);
conversely an enabled call that returns normally had a UTF-8-representable
resolved path. -/
theorem procout_c10_utf8_path
    (feat : Features) (env : Env) (fs : FS) (code_block : List Tok)
    (module_ident : Option String) (output_path : Option String)
    (target_dir : List String)
    (hen : (feat.procout_feature || feat.procout_messy) = true)
    (hres : resolveTargetDir env output_path = .ok target_dir)
    (hdir : env.create_dir target_dir = .ok ()) :
    (env.to_str_ok
        (target_dir ++ [fileNameOf (moduleNameOf env module_ident)]) = false →
      procout feat env fs code_block module_ident output_path =
        .fatal "Must create string from target path"
          { fs with dirs := insertDir target_dir fs.dirs })
    ∧ (∀ fs', procout feat env fs code_block module_ident output_path = .ok fs' →
        env.to_str_ok
          (target_dir ++ [fileNameOf (moduleNameOf env module_ident)]) = true) := by
  constructor
  · intro hstr
    simp [procout, hen, hres, hdir, hstr]
  · intro fs' hok
    cases hstr : env.to_str_ok
        (target_dir ++ [fileNameOf (moduleNameOf env module_ident)]) with
    | true => rfl
    | false =>
      have heq : procout feat env fs code_block module_ident output_path =
          .fatal "Must create string from target path"
            { fs with dirs := insertDir target_dir fs.dirs } := by
        simp [procout, hen, hres, hdir, hstr]
      rw [heq] at hok
      exact ProcoutResult.noConfusion hok

theorem procout_c10_utf8_path_witness :
    procout featAll { envH with to_str_ok := fun _ => false } fsEmpty c4code
      (some "MyModule") (some "out")
      = .fatal "Must create string from target path"
          { fsEmpty with dirs := insertDir ["out"] fsEmpty.dirs } :=
  (procout_c10_utf8_path featAll { envH with to_str_ok := fun _ => false }
    fsEmpty c4code (some "MyModule") (some "out") ["out"] rfl rfl rfl).1 rfl
